import Mathlib

/-!
Verification of the permutation-test routine in the chronic-pain notebook
(`difference_of_means_abs`, `one_simulated_difference`, the repetitions loop
and `empirical_P`).

The embedding models the notebook's dataframe as the two columns the routine
uses (`Result`, the 0/1 outcome column, and `Group`, the label column) plus
the `Shuffled Label` column that `one_simulated_difference` writes into the
caller's dataframe.  `df.groupby(label).mean()` is modelled by sorting the
distinct labels (pandas sorts group keys lexicographically, matching code
points, which `label_le` below implements directly) and taking, for each key,
the mean of the outcomes at the rows carrying that key; the source then reads
the first two rows of that table (`.iloc(0)[0][0]` and `.iloc(0)[1][0]`),
which the embedding reproduces by matching on the first two sorted keys.
Randomness (`df.sample(n=df.shape[0], replace=False)`) is modelled by passing
the drawn row permutation, a list of row indices, explicitly.  A raised
Python exception is modelled as `none`.
-/

namespace PermTest

/-- The columns of the notebook's dataframe that the routine touches:
the numeric outcome column `Result`, the label column `Group`, and the
`Shuffled Label` column, which is absent (`none`) until
`one_simulated_difference` first writes it. -/
structure DataFrame where
  result : List ℚ
  group : List String
  shuffled : Option (List String)
deriving DecidableEq

/-- Lexicographic comparison of character lists by code point, the order in
which pandas sorts string group keys. -/
def charListLe : List Char → List Char → Bool
  | [], _ => true
  | _ :: _, [] => false
  | a :: as, b :: bs =>
    if a.val.toNat < b.val.toNat then true
    else if b.val.toNat < a.val.toNat then false
    else charListLe as bs

/-- Lexicographic order on the labels, as pandas sorts group keys. -/
def label_le (a b : String) : Bool := charListLe a.data b.data

/-- The sorted distinct group keys, as produced by `df.groupby(label)`
(pandas sorts the keys ascending). -/
def group_keys (labels : List String) : List String :=
  List.insertionSort (fun a b => label_le a b = true) labels.dedup

/-- Mean of the outcome column over the rows whose label equals `k`
(one cell of the `groupby(label).mean()` table). -/
def group_mean (outcomes : List ℚ) (labels : List String) (k : String) : ℚ :=
  let sel := ((labels.zip outcomes).filter (fun r => r.1 = k)).map (fun r => r.2)
  sel.sum / (sel.length : ℚ)

/-- `difference_of_means_abs(df, group_label)`: reads the first two rows of
the `groupby(group_label).mean()` table and returns the absolute difference
of their means.  With fewer than two distinct labels the `.iloc` chain raises
an IndexError (`none` here); with more than two distinct labels the rows past
the second are silently ignored, exactly as in the source. -/
def difference_of_means_abs (outcomes : List ℚ) (labels : List String) : Option ℚ :=
  match group_keys labels with
  | k0 :: k1 :: _ => some |group_mean outcomes labels k0 - group_mean outcomes labels k1|
  | _ => none

/-- The shuffled label column: `df.sample(n=df.shape[0], replace=False)`
permutes the rows by the drawn index permutation `σ`, and
`temp_df[group_label]` is the label column in that permuted row order. -/
def shuffle_labels (labels : List String) (σ : List ℕ) : List String :=
  σ.map (fun i => labels.getD i "")

/-- `one_simulated_difference(df, group_label)`: draws a row permutation,
assigns the permuted labels to the caller's dataframe as the new column
`Shuffled Label` (the statement `df['Shuffled Label'] = temp_df[group_label]`
writes through to the caller's dataframe), then computes
`difference_of_means_abs` grouping by the shuffled column on a local copy
that drops the original label column.  Returns the statistic together with
the dataframe state the caller observes after the call. -/
def one_simulated_difference (df : DataFrame) (σ : List ℕ) : Option ℚ × DataFrame :=
  let newLabels := shuffle_labels df.group σ
  (difference_of_means_abs df.result newLabels, { df with shuffled := some newLabels })

/-- The notebook's repetitions loop: one trial per drawn permutation,
threading the (mutated) dataframe state; a raised exception (`none`) aborts
the loop. -/
def simulate (df : DataFrame) : List (List ℕ) → Option (List ℚ) × DataFrame
  | [] => (some [], df)
  | σ :: σs =>
    match one_simulated_difference df σ with
    | (none, df') => (none, df')
    | (some d, df') =>
      match simulate df' σs with
      | (none, df'') => (none, df'')
      | (some ds, df'') => (some (d :: ds), df'')

/-- `empirical_P = np.count_nonzero(differences <= observed_difference) /
repetitions`: the source counts the simulated statistics that are *less than
or equal to* the observed one.  `repetitions = 0` raises a ZeroDivisionError
(`none`). -/
def empirical_P (differences : List ℚ) (observed : ℚ) (repetitions : ℤ) : Option ℚ :=
  if repetitions = 0 then none
  else some ((differences.countP (fun d => decide (d ≤ observed)) : ℚ) / (repetitions : ℚ))

/-- Modelled from the spec: "The empirical p-value is the fraction of
null-distribution values that are greater than or equal to the observed
statistic."  Used only to compare the source's `empirical_P` against the
direction the spec states. -/
def empirical_P_spec (differences : List ℚ) (observed : ℚ) : ℚ :=
  (differences.countP (fun d => decide (observed ≤ d)) : ℚ) / (differences.length : ℚ)

/-- The whole routine as the notebook runs it: observed statistic first
(cells 14–15), then the repetitions loop (cell 22) over the drawn
permutations `σs` (one draw per loop iteration, so a run with `repetitions`
iterations consumes a list of that length), then `empirical_P` (cell 24).
Returns the observed statistic, the null distribution and the p-value,
together with the dataframe state after the run. -/
def run_permutation_test (df : DataFrame) (σs : List (List ℕ)) (repetitions : ℤ) :
    Option (ℚ × List ℚ × ℚ) × DataFrame :=
  match difference_of_means_abs df.result df.group with
  | none => (none, df)
  | some obs =>
    match simulate df σs with
    | (none, df') => (none, df')
    | (some ds, df') =>
      match empirical_P ds obs repetitions with
      | none => (none, df')
      | some p => (some (obs, ds, p), df')

/-- A dataframe holding two labelled groups: outcomes `xs` under label `a`
followed by outcomes `ys` under label `b`, as loaded from the CSV. -/
def two_group_df (a b : String) (xs ys : List ℚ) : DataFrame :=
  ⟨xs ++ ys, List.replicate xs.length a ++ List.replicate ys.length b, none⟩

/-- `σ` is a permutation of the row indices `0, …, n-1`, the kind of draw
`df.sample(n=df.shape[0], replace=False)` produces. -/
def IsPermIdx (σ : List ℕ) (n : ℕ) : Prop :=
  σ.Nodup ∧ σ.length = n ∧ ∀ i ∈ σ, i < n

instance (σ : List ℕ) (n : ℕ) : Decidable (IsPermIdx σ n) := by
  unfold IsPermIdx; infer_instance

/-- The four-row dataset used as a concrete run: outcomes `[1,1,0,0]`,
groups `[A,A,B,B]`, freshly loaded (no shuffled column). -/
def df_ex : DataFrame := ⟨[1, 1, 0, 0], ["A", "A", "B", "B"], none⟩

/-- Two drawn row permutations for a two-repetition run on `df_ex`: the
identity draw and the draw swapping rows 1 and 2. -/
def draws_ex : List (List ℕ) := [[0, 1, 2, 3], [0, 2, 1, 3]]

end PermTest

namespace PermTest

section Helpers

theorem perm_range_of_isPermIdx {σ : List ℕ} {n : ℕ} (h : IsPermIdx σ n) :
    σ.Perm (List.range n) := by
  obtain ⟨hnd, hlen, hmem⟩ := h
  refine List.Subperm.perm_of_length_le ?_ ?_
  · exact List.subperm_of_subset hnd fun i hi => List.mem_range.mpr (hmem i hi)
  · rw [List.length_range, hlen]

theorem map_getD_range (l : List String) :
    (List.range l.length).map (fun i => l.getD i "") = l := by
  apply List.ext_getElem
  · simp
  · intro i h₁ h₂
    simp only [List.getElem_map, List.getElem_range]
    exact List.getD_eq_getElem _ _ h₂

theorem shuffle_labels_perm {labels : List String} {σ : List ℕ}
    (h : IsPermIdx σ labels.length) : (shuffle_labels labels σ).Perm labels := by
  have hp := (perm_range_of_isPermIdx h).map (fun i => labels.getD i "")
  rw [map_getD_range] at hp
  exact hp

theorem length_group_keys (labels : List String) :
    (group_keys labels).length = labels.dedup.length :=
  (List.perm_insertionSort _ _).length_eq

theorem diff_isSome_iff (outcomes : List ℚ) (labels : List String) :
    (difference_of_means_abs outcomes labels).isSome ↔ 2 ≤ labels.dedup.length := by
  rw [← length_group_keys]
  unfold difference_of_means_abs
  rcases hk : group_keys labels with _ | ⟨k0, _ | ⟨k1, ks⟩⟩
  · simp
  · simp
  · simp

theorem diff_nonneg {outcomes : List ℚ} {labels : List String} {d : ℚ}
    (h : difference_of_means_abs outcomes labels = some d) : 0 ≤ d := by
  unfold difference_of_means_abs at h
  rcases hk : group_keys labels with _ | ⟨k0, _ | ⟨k1, ks⟩⟩ <;> rw [hk] at h
  · simp at h
  · simp at h
  · simp only [Option.some.injEq] at h
    rw [← h]
    exact abs_nonneg _

theorem dedup_length_shuffle {labels : List String} {σ : List ℕ}
    (h : IsPermIdx σ labels.length) :
    (shuffle_labels labels σ).dedup.length = labels.dedup.length :=
  ((shuffle_labels_perm h).dedup).length_eq

theorem simulate_some_inv {df : DataFrame} {σs : List (List ℕ)} {ds : List ℚ}
    {df' : DataFrame} (h : simulate df σs = (some ds, df')) :
    ds.length = σs.length ∧ df'.result = df.result ∧ df'.group = df.group ∧
      ∀ x ∈ ds, ∃ lbls, difference_of_means_abs df.result lbls = some x := by
  induction σs generalizing df ds with
  | nil =>
    simp only [simulate, Prod.mk.injEq, Option.some.injEq] at h
    obtain ⟨h1, h2⟩ := h
    subst h2
    subst h1
    simp
  | cons σ σs ih =>
    rcases hd : difference_of_means_abs df.result (shuffle_labels df.group σ) with _ | d
    · simp [simulate, one_simulated_difference, hd] at h
    · rcases hs : simulate
          { result := df.result, group := df.group,
            shuffled := some (shuffle_labels df.group σ) } σs with ⟨os, df₀⟩
      cases os with
      | none => simp [simulate, one_simulated_difference, hd, hs] at h
      | some ds₀ =>
        simp only [simulate, one_simulated_difference, hd, hs, Prod.mk.injEq,
          Option.some.injEq] at h
        obtain ⟨h1, h2⟩ := h
        subst h2
        subst h1
        obtain ⟨hl, hr, hg, hall⟩ := ih hs
        refine ⟨by simp [hl], hr, hg, ?_⟩
        intro x hx
        rcases List.mem_cons.mp hx with rfl | hx
        · exact ⟨shuffle_labels df.group σ, hd⟩
        · exact hall x hx

theorem simulate_total {df : DataFrame} {σs : List (List ℕ)}
    (hσ : ∀ σ ∈ σs, IsPermIdx σ df.group.length)
    (hk : 2 ≤ df.group.dedup.length) :
    ∃ ds df', simulate df σs = (some ds, df') := by
  induction σs generalizing df with
  | nil => exact ⟨[], df, rfl⟩
  | cons σ σs ih =>
    have hperm : IsPermIdx σ df.group.length := hσ σ (List.mem_cons_self σ σs)
    have hsome : (difference_of_means_abs df.result (shuffle_labels df.group σ)).isSome := by
      rw [diff_isSome_iff, dedup_length_shuffle hperm]
      exact hk
    rcases hd : difference_of_means_abs df.result (shuffle_labels df.group σ) with _ | d
    · rw [hd] at hsome; exact absurd hsome (by simp)
    · have hσ' : ∀ τ ∈ σs, IsPermIdx τ
          ({ result := df.result, group := df.group,
             shuffled := some (shuffle_labels df.group σ) } : DataFrame).group.length :=
        fun τ hτ => hσ τ (List.mem_cons_of_mem σ hτ)
      rcases ih hσ' hk with ⟨ds, df', hs⟩
      refine ⟨d :: ds, df', ?_⟩
      simp only [simulate, one_simulated_difference, hd, hs]

end Helpers

section ConcreteEvaluations

theorem group_keys_AABB : group_keys ["A", "A", "B", "B"] = ["A", "B"] := by decide

theorem group_keys_ABAB : group_keys ["A", "B", "A", "B"] = ["A", "B"] := by decide

theorem diff_ex_observed : difference_of_means_abs [1, 1, 0, 0] ["A", "A", "B", "B"] = some 1 := by
  simp +decide [difference_of_means_abs, group_keys_AABB, group_mean]

theorem diff_ex_mixed : difference_of_means_abs [1, 1, 0, 0] ["A", "B", "A", "B"] = some 0 := by
  simp +decide [difference_of_means_abs, group_keys_ABAB, group_mean]

theorem shuffle_ex_id :
    shuffle_labels ["A", "A", "B", "B"] [0, 1, 2, 3] = ["A", "A", "B", "B"] := by decide

theorem shuffle_ex_swap :
    shuffle_labels ["A", "A", "B", "B"] [0, 2, 1, 3] = ["A", "B", "A", "B"] := by decide

theorem simulate_ex :
    simulate df_ex draws_ex =
      (some [1, 0], ⟨[1, 1, 0, 0], ["A", "A", "B", "B"], some ["A", "B", "A", "B"]⟩) := by
  have h1 : one_simulated_difference df_ex [0, 1, 2, 3] =
      (some 1, ⟨[1, 1, 0, 0], ["A", "A", "B", "B"], some ["A", "A", "B", "B"]⟩) := by
    simp only [one_simulated_difference, df_ex, shuffle_ex_id, diff_ex_observed]
  have h2 : one_simulated_difference
      ⟨[1, 1, 0, 0], ["A", "A", "B", "B"], some ["A", "A", "B", "B"]⟩ [0, 2, 1, 3] =
      (some 0, ⟨[1, 1, 0, 0], ["A", "A", "B", "B"], some ["A", "B", "A", "B"]⟩) := by
    simp only [one_simulated_difference, shuffle_ex_swap, diff_ex_mixed]
  simp only [draws_ex, simulate, h1, h2]

theorem run_ex :
    run_permutation_test df_ex draws_ex 2 =
      (some (1, [1, 0], 1),
        ⟨[1, 1, 0, 0], ["A", "A", "B", "B"], some ["A", "B", "A", "B"]⟩) := by
  have hobs : difference_of_means_abs df_ex.result df_ex.group = some 1 := diff_ex_observed
  have hp : empirical_P [1, 0] 1 2 = some 1 := by
    unfold empirical_P
    norm_num [List.countP_cons]
  simp only [run_permutation_test, hobs, simulate_ex, hp]

end ConcreteEvaluations

/-- C1.  The source computes the p-value as the fraction of simulated
statistics that are less than or equal to the observed one, not greater than
or equal to as the spec states: on the dataset with outcomes `[1,1,0,0]` and
groups `[A,A,B,B]`, with two trials drawn as the identity permutation and the
swap of rows 1 and 2, the null distribution is `[1, 0]`, the observed
statistic is `1`, the code returns p-value `1`, while the fraction of
null-distribution values that are `≥` the observed statistic is `1/2`. -/
theorem c1_pvalue_direction_bug :
    (run_permutation_test df_ex draws_ex 2).1 = some (1, [1, 0], 1) ∧
    empirical_P_spec [1, 0] 1 = 1 / 2 ∧ (1 : ℚ) ≠ 1 / 2 := by
  refine ⟨by rw [run_ex], ?_, by norm_num⟩
  unfold empirical_P_spec
  norm_num [List.countP_cons]

/-- C2.  `one_simulated_difference` mutates the caller's dataframe: on a
freshly loaded two-row dataframe (no `Shuffled Label` column) and the drawn
permutation `[1, 0]`, the dataframe after the call carries the new column
`Shuffled Label = ["B", "A"]`, so it differs from the dataframe passed in. -/
theorem c2_input_mutated :
    (one_simulated_difference ⟨[1, 0], ["A", "B"], none⟩ [1, 0]).2 =
      ⟨[1, 0], ["A", "B"], some ["B", "A"]⟩ ∧
    (⟨[1, 0], ["A", "B"], some ["B", "A"]⟩ : DataFrame) ≠ ⟨[1, 0], ["A", "B"], none⟩ := by
  exact ⟨by decide, by decide⟩

/-- C4.  No repetitions check exists: with `repetitions = -1` (and no loop
iterations, since `np.arange(-1)` is empty) the run does not fail at all but
returns observed statistic `1`, an empty null distribution and p-value `0`;
with `repetitions = 0` it fails only at the final division (ZeroDivisionError
after the empty loop), not with an eager ConfigurationError. -/
theorem c4_no_repetitions_check :
    (run_permutation_test df_ex [] (-1)).1 = some (1, [], 0) ∧
    (run_permutation_test df_ex [] 0).1 = none := by
  have hobs : difference_of_means_abs df_ex.result df_ex.group = some 1 := diff_ex_observed
  have hsim : simulate df_ex [] = (some [], df_ex) := rfl
  constructor
  · have hp : empirical_P [] 1 (-1) = some 0 := by
      unfold empirical_P
      norm_num
    simp only [run_permutation_test, hobs, hsim, hp]
  · have hp : empirical_P [] 1 0 = none := by
      unfold empirical_P
      norm_num
    simp only [run_permutation_test, hobs, hsim, hp]

/-- C5.  On a dataset with a third, unexpected label value,
`difference_of_means_abs` does not fail: with outcomes `[1, 0, 1]` and labels
`["A", "B", "C"]` it silently returns `|mean(A) - mean(B)| = 1`, ignoring
group `C` entirely. -/
theorem c5_third_label_not_rejected :
    difference_of_means_abs [1, 0, 1] ["A", "B", "C"] = some 1 := by
  have hk : group_keys ["A", "B", "C"] = ["A", "B", "C"] := by decide
  simp +decide [difference_of_means_abs, hk, group_mean]

/-- C3.  Relabeling is a permutation of the existing labels: for every
dataframe and every drawn row permutation, the shuffled label column written
by `one_simulated_difference` has, for each label value, the same number of
occurrences as the original label column. -/
theorem c3_relabeling_preserves_counts (df : DataFrame) (σ : List ℕ)
    (h : IsPermIdx σ df.group.length) (v : String) :
    ((one_simulated_difference df σ).2.shuffled.getD []).count v = df.group.count v := by
  have hp := shuffle_labels_perm h
  simp only [one_simulated_difference, Option.getD_some]
  exact hp.count_eq v

theorem c3_witness :
    IsPermIdx [1, 0] (⟨[1, 0], ["A", "B"], none⟩ : DataFrame).group.length ∧
    ((one_simulated_difference ⟨[1, 0], ["A", "B"], none⟩ [1, 0]).2.shuffled.getD []).count "A" =
      (⟨[1, 0], ["A", "B"], none⟩ : DataFrame).group.count "A" :=
  ⟨by decide, c3_relabeling_preserves_counts ⟨[1, 0], ["A", "B"], none⟩ [1, 0] (by decide) "A"⟩

/-- C6.  For every dataset on which the observed statistic computes (in
particular every valid two-group dataset) and every run of `R > 0`
repetitions, the run succeeds and the null distribution it returns has
exactly `R` elements, each of them non-negative. -/
theorem c6_null_distribution_shape (df : DataFrame) (σs : List (List ℕ)) (R : ℕ) (q : ℚ)
    (hσ : ∀ σ ∈ σs, IsPermIdx σ df.group.length)
    (hlen : σs.length = R) (hR : 0 < R)
    (hobs : difference_of_means_abs df.result df.group = some q) :
    ∃ ds p df', run_permutation_test df σs (R : ℤ) = (some (q, ds, p), df') ∧
      ds.length = R ∧ ∀ x ∈ ds, 0 ≤ x := by
  have hk : 2 ≤ df.group.dedup.length :=
    (diff_isSome_iff df.result df.group).mp (by rw [hobs]; rfl)
  obtain ⟨ds, df', hs⟩ := simulate_total hσ hk
  obtain ⟨hl, _, _, hall⟩ := simulate_some_inv hs
  have hR0 : (R : ℤ) ≠ 0 := by exact_mod_cast hR.ne'
  refine ⟨ds, (ds.countP (fun d => decide (d ≤ q)) : ℚ) / (((R : ℤ) : ℚ)), df', ?_,
    by rw [hl, hlen], ?_⟩
  · simp only [run_permutation_test, hobs, hs, empirical_P, if_neg hR0]
  · intro x hx
    obtain ⟨lbls, hlb⟩ := hall x hx
    exact diff_nonneg hlb

theorem c6_witness :
    (∀ σ ∈ draws_ex, IsPermIdx σ df_ex.group.length) ∧
    ∃ ds p df', run_permutation_test df_ex draws_ex ((2 : ℕ) : ℤ) = (some (1, ds, p), df') ∧
      ds.length = 2 ∧ ∀ x ∈ ds, 0 ≤ x :=
  ⟨by decide, c6_null_distribution_shape df_ex draws_ex 2 1 (by decide) (by decide)
    (by decide) diff_ex_observed⟩

/-- C9.  Whatever p-value the run returns lies in the closed interval
`[0, 1]`: it is a count of null-distribution elements (at most the length of
the null distribution, which equals the repetition count) divided by the
repetition count. -/
theorem c9_pvalue_in_unit_interval (df : DataFrame) (σs : List (List ℕ)) (R : ℕ)
    (q p : ℚ) (ds : List ℚ) (e : DataFrame) (hR : 0 < R) (hlen : σs.length = R)
    (hrun : run_permutation_test df σs (R : ℤ) = (some (q, ds, p), e)) :
    0 ≤ p ∧ p ≤ 1 := by
  rcases ho : difference_of_means_abs df.result df.group with _ | q₀
  · simp [run_permutation_test, ho] at hrun
  · rcases hs : simulate df σs with ⟨os, df₀⟩
    cases os with
    | none => simp [run_permutation_test, ho, hs] at hrun
    | some ds₀ =>
      have hR0 : (R : ℤ) ≠ 0 := by exact_mod_cast hR.ne'
      simp only [run_permutation_test, ho, hs, empirical_P, if_neg hR0, Prod.mk.injEq,
        Option.some.injEq] at hrun
      obtain ⟨⟨hq, hds, hp⟩, he⟩ := hrun
      subst hds
      subst hp
      have hlen₀ : ds₀.length = σs.length := (simulate_some_inv hs).1
      have hcount : ds₀.countP (fun d => decide (d ≤ q₀)) ≤ R := by
        calc ds₀.countP (fun d => decide (d ≤ q₀)) ≤ ds₀.length := List.countP_le_length _
        _ = R := by rw [hlen₀, hlen]
      have hRq : (0 : ℚ) < ((R : ℤ) : ℚ) := by exact_mod_cast hR
      constructor
      · exact div_nonneg (by positivity) hRq.le
      · rw [div_le_one hRq]
        exact_mod_cast hcount

theorem c9_witness : 0 ≤ (1 : ℚ) ∧ (1 : ℚ) ≤ 1 :=
  c9_pvalue_in_unit_interval df_ex draws_ex 2 1 1 [1, 0]
    ⟨[1, 1, 0, 0], ["A", "A", "B", "B"], some ["A", "B", "A", "B"]⟩
    (by norm_num) (by decide) run_ex

theorem group_mean_bounds (outcomes : List ℚ) (labels : List String) (k : String)
    (h01 : ∀ x ∈ outcomes, x = 0 ∨ x = 1) :
    0 ≤ group_mean outcomes labels k ∧ group_mean outcomes labels k ≤ 1 := by
  simp only [group_mean]
  set sel := ((labels.zip outcomes).filter (fun r => r.1 = k)).map (fun r => r.2) with hsel
  have hmem : ∀ x ∈ sel, x = 0 ∨ x = 1 := by
    intro x hx
    rw [hsel] at hx
    obtain ⟨⟨a, b⟩, hab, rfl⟩ := List.mem_map.mp hx
    exact h01 b (List.of_mem_zip (List.mem_filter.mp hab).1).2
  have h0 : 0 ≤ sel.sum :=
    List.sum_nonneg fun x hx => by rcases hmem x hx with rfl | rfl <;> norm_num
  have h1 : sel.sum ≤ (sel.length : ℚ) := by
    have := List.sum_le_card_nsmul sel 1 fun x hx => by rcases hmem x hx with rfl | rfl <;> norm_num
    simpa using this
  rcases Nat.eq_zero_or_pos sel.length with hz | hpos
  · have hnil : sel = [] := List.length_eq_zero.mp hz
    rw [hnil]
    norm_num
  · have hposq : (0 : ℚ) < (sel.length : ℚ) := by exact_mod_cast hpos
    exact ⟨div_nonneg h0 hposq.le, by rw [div_le_one hposq]; exact h1⟩

theorem diff_le_one {outcomes : List ℚ} {labels : List String} {d : ℚ}
    (h01 : ∀ x ∈ outcomes, x = 0 ∨ x = 1)
    (h : difference_of_means_abs outcomes labels = some d) : d ≤ 1 := by
  unfold difference_of_means_abs at h
  rcases hk : group_keys labels with _ | ⟨k0, _ | ⟨k1, ks⟩⟩ <;> rw [hk] at h
  · simp at h
  · simp at h
  · simp only [Option.some.injEq] at h
    obtain ⟨h0l, h0u⟩ := group_mean_bounds outcomes labels k0 h01
    obtain ⟨h1l, h1u⟩ := group_mean_bounds outcomes labels k1 h01
    rw [← h, abs_sub_le_iff]
    constructor <;> linarith

/-- C10.  When every outcome value is 0 or 1, every statistic the run
produces — the observed statistic and every element of the null
distribution — lies in `[0, 1]`. -/
theorem c10_statistics_in_unit_interval (df : DataFrame) (σs : List (List ℕ)) (r : ℤ)
    (q p : ℚ) (ds : List ℚ) (e : DataFrame)
    (h01 : ∀ x ∈ df.result, x = 0 ∨ x = 1)
    (hrun : run_permutation_test df σs r = (some (q, ds, p), e)) :
    (0 ≤ q ∧ q ≤ 1) ∧ ∀ x ∈ ds, 0 ≤ x ∧ x ≤ 1 := by
  rcases ho : difference_of_means_abs df.result df.group with _ | q₀
  · simp [run_permutation_test, ho] at hrun
  · rcases hs : simulate df σs with ⟨os, df₀⟩
    cases os with
    | none => simp [run_permutation_test, ho, hs] at hrun
    | some ds₀ =>
      rcases hep : empirical_P ds₀ q₀ r with _ | p₀
      · simp [run_permutation_test, ho, hs, hep] at hrun
      · simp only [run_permutation_test, ho, hs, hep, Prod.mk.injEq, Option.some.injEq] at hrun
        obtain ⟨⟨hq, hds, hp⟩, he⟩ := hrun
        subst hq
        subst hds
        refine ⟨⟨diff_nonneg ho, diff_le_one h01 ho⟩, ?_⟩
        intro x hx
        obtain ⟨lbls, hlb⟩ := (simulate_some_inv hs).2.2.2 x hx
        exact ⟨diff_nonneg hlb, diff_le_one h01 hlb⟩

theorem c10_witness :
    (∀ x ∈ df_ex.result, x = 0 ∨ x = 1) ∧
    (0 ≤ (1 : ℚ) ∧ (1 : ℚ) ≤ 1) ∧ ∀ x ∈ [(1 : ℚ), 0], 0 ≤ x ∧ x ≤ 1 :=
  ⟨by decide, c10_statistics_in_unit_interval df_ex draws_ex 2 1 1 [1, 0]
    ⟨[1, 1, 0, 0], ["A", "A", "B", "B"], some ["A", "B", "A", "B"]⟩ (by decide) run_ex⟩

theorem dedup_replicate (c : String) : ∀ k, k ≠ 0 → (List.replicate k c).dedup = [c]
  | 0, h => absurd rfl h
  | 1, _ => by simp
  | k + 2, _ => by
    rw [List.replicate_succ,
      List.dedup_cons_of_mem (List.mem_replicate.mpr ⟨Nat.succ_ne_zero k, rfl⟩)]
    exact dedup_replicate c (k + 1) (Nat.succ_ne_zero k)

theorem replicate_succ_union (a b : String) (hab : a ≠ b) :
    ∀ m, List.replicate (m + 1) a ∪ [b] = [a, b]
  | 0 => by simp [hab]
  | m + 1 => by
    rw [List.replicate_succ, List.cons_union, replicate_succ_union a b hab m]
    simp

theorem dedup_replicate_append (a b : String) (m k : ℕ) (hm : m ≠ 0) (hk : k ≠ 0)
    (hab : a ≠ b) : (List.replicate m a ++ List.replicate k b).dedup = [a, b] := by
  rw [List.dedup_append, dedup_replicate b k hk]
  obtain ⟨m', rfl⟩ := Nat.exists_eq_succ_of_ne_zero hm
  exact replicate_succ_union a b hab m'

theorem group_keys_two (a b : String) (m k : ℕ) (hm : m ≠ 0) (hk : k ≠ 0) (hab : a ≠ b) :
    group_keys (List.replicate m a ++ List.replicate k b) =
      if label_le a b = true then [a, b] else [b, a] := by
  unfold group_keys
  rw [dedup_replicate_append a b m k hm hk hab]
  by_cases hle : label_le a b = true
  · simp [List.insertionSort, List.orderedInsert, hle]
  · simp [List.insertionSort, List.orderedInsert, hle]

theorem zip_replicate_left (c : String) (l : List ℚ) :
    (List.replicate l.length c).zip l = l.map (fun x => (c, x)) := by
  induction l with
  | nil => rfl
  | cons x xs ih => simp [List.replicate_succ, ih]

theorem group_mean_block_left (a b : String) (xs ys : List ℚ) (hab : a ≠ b) :
    group_mean (xs ++ ys) (List.replicate xs.length a ++ List.replicate ys.length b) a =
      xs.sum / (xs.length : ℚ) := by
  simp only [group_mean]
  rw [List.zip_append (by simp), zip_replicate_left, zip_replicate_left,
    List.filter_append, List.filter_map, List.filter_map]
  simp [Function.comp_def, Ne.symm hab]

theorem group_mean_block_right (a b : String) (xs ys : List ℚ) (hab : a ≠ b) :
    group_mean (xs ++ ys) (List.replicate xs.length a ++ List.replicate ys.length b) b =
      ys.sum / (ys.length : ℚ) := by
  simp only [group_mean]
  rw [List.zip_append (by simp), zip_replicate_left, zip_replicate_left,
    List.filter_append, List.filter_map, List.filter_map]
  simp [Function.comp_def, hab]

/-- C8.  `difference_of_means_abs` is symmetric under exchanging the two
groups: giving outcomes `xs` the label `a` and outcomes `ys` the label `b`
yields the same statistic as giving `ys` the label `a` and `xs` the
label `b`. -/
theorem c8_swap_groups_symmetric (a b : String) (xs ys : List ℚ) (hab : a ≠ b)
    (hx : xs ≠ []) (hy : ys ≠ []) :
    difference_of_means_abs (two_group_df a b xs ys).result (two_group_df a b xs ys).group =
      difference_of_means_abs (two_group_df a b ys xs).result (two_group_df a b ys xs).group := by
  have hmx : xs.length ≠ 0 := fun h => hx (List.length_eq_zero.mp h)
  have hmy : ys.length ≠ 0 := fun h => hy (List.length_eq_zero.mp h)
  have hk1 := group_keys_two a b xs.length ys.length hmx hmy hab
  have hk2 := group_keys_two a b ys.length xs.length hmy hmx hab
  by_cases hle : label_le a b = true
  · rw [if_pos hle] at hk1 hk2
    simp only [two_group_df, difference_of_means_abs, hk1, hk2,
      group_mean_block_left a b xs ys hab, group_mean_block_right a b xs ys hab,
      group_mean_block_left a b ys xs hab, group_mean_block_right a b ys xs hab]
    rw [abs_sub_comm]
  · rw [if_neg hle] at hk1 hk2
    simp only [two_group_df, difference_of_means_abs, hk1, hk2,
      group_mean_block_left a b xs ys hab, group_mean_block_right a b xs ys hab,
      group_mean_block_left a b ys xs hab, group_mean_block_right a b ys xs hab]
    rw [abs_sub_comm]

theorem c8_witness :
    (("A" : String) ≠ "B" ∧ ([(1 : ℚ)] : List ℚ) ≠ [] ∧ ([(0 : ℚ)] : List ℚ) ≠ []) ∧
    difference_of_means_abs (two_group_df "A" "B" [1] [0]).result
        (two_group_df "A" "B" [1] [0]).group =
      difference_of_means_abs (two_group_df "A" "B" [0] [1]).result
        (two_group_df "A" "B" [0] [1]).group :=
  ⟨⟨by decide, by decide, by decide⟩,
    c8_swap_groups_symmetric "A" "B" [1] [0] (by decide) (by decide) (by decide)⟩

/-- C7.  On the dataset with group A outcomes `[1,1,1,0,0]` and group B
outcomes `[1,0,0,0,0,0,0,0,0,0,0,0,0,0,0,0]`, the observed statistic is
exactly `0.5375`, the absolute difference of the group means
`3/5 = 0.6` and `1/16 = 0.0625`. -/
theorem c7_observed_statistic_value :
    difference_of_means_abs
        (two_group_df "A" "B" [1, 1, 1, 0, 0]
          [1, 0, 0, 0, 0, 0, 0, 0, 0, 0, 0, 0, 0, 0, 0, 0]).result
        (two_group_df "A" "B" [1, 1, 1, 0, 0]
          [1, 0, 0, 0, 0, 0, 0, 0, 0, 0, 0, 0, 0, 0, 0, 0]).group =
      some 0.5375 ∧ (0.5375 : ℚ) = |3 / 5 - 1 / 16| := by
  have habs : |(3 / 5 : ℚ) - 1 / 16| = 0.5375 := by
    rw [abs_of_nonneg (by norm_num : (0 : ℚ) ≤ 3 / 5 - 1 / 16)]
    norm_num
  constructor
  · have hk := group_keys_two "A" "B" ([1, 1, 1, 0, 0] : List ℚ).length
      ([1, 0, 0, 0, 0, 0, 0, 0, 0, 0, 0, 0, 0, 0, 0, 0] : List ℚ).length
      (by decide) (by decide) (by decide)
    rw [if_pos (by decide)] at hk
    have h1 : ([1, 1, 1, 0, 0] : List ℚ).sum / (([1, 1, 1, 0, 0] : List ℚ).length : ℚ) =
        3 / 5 := by norm_num
    have h2 : ([1, 0, 0, 0, 0, 0, 0, 0, 0, 0, 0, 0, 0, 0, 0, 0] : List ℚ).sum /
        (([1, 0, 0, 0, 0, 0, 0, 0, 0, 0, 0, 0, 0, 0, 0, 0] : List ℚ).length : ℚ) =
        1 / 16 := by norm_num
    simp only [two_group_df, difference_of_means_abs, hk,
      group_mean_block_left "A" "B" [1, 1, 1, 0, 0]
        [1, 0, 0, 0, 0, 0, 0, 0, 0, 0, 0, 0, 0, 0, 0, 0] (by decide),
      group_mean_block_right "A" "B" [1, 1, 1, 0, 0]
        [1, 0, 0, 0, 0, 0, 0, 0, 0, 0, 0, 0, 0, 0, 0, 0] (by decide), h1, h2, habs]
  · rw [habs]

end PermTest
